import Mathlib

/-!
Verification development for the pandas time-series frequency subsystem
(`pandas/tseries/frequencies.py` and `pandas/tseries/util.py`).

The embedding works over tz-naive timestamp sequences: a `DatetimeIndex` (or
`TimedeltaIndex`) is modelled as a `List Int` of signed 64-bit nanosecond
values (`index.asi8`).  Python `//` and `%` on integers are modelled by
`Int.fdiv` / `Int.emod` (floor division, nonnegative remainder for positive
divisors), Python exact `/` between integers by `Int.fdiv` at call sites where
the code guarantees divisibility, and by rational division (`ℚ`) where the
code genuinely compares fractional quotients (`day_deltas`, `hour_deltas`).
Raised Python exceptions are modelled with `Except`.
-/

namespace Pandas

/-! ### String primitives (models of Python `str` operations) -/

/-- Model of Python `str.upper()` restricted to ASCII (frequency aliases are
ASCII). -/
def charUpper (c : Char) : Char :=
  if 97 ≤ c.toNat && c.toNat ≤ 122 then Char.ofNat (c.toNat - 32) else c

/-- Model of Python `str.upper()`. -/
def strUpper (s : String) : String := ⟨s.data.map charUpper⟩

/-- Predicate `beginsWith p l` is true when the character list `p` is an initial segment
of `l`; used to model Python `str.startswith`. -/
def beginsWith : List Char → List Char → Bool
  | [], _ => true
  | _ :: _, [] => false
  | a :: as, b :: bs => a == b && beginsWith as bs

/-- Model of Python `s.startswith(p)`. -/
def strBegins (s p : String) : Bool := beginsWith p.data s.data

/-- Model of Python string equality. -/
def strEq (a b : String) : Bool := a.data == b.data

/-- Model of Python `s in {…}` membership over a set of strings. -/
def memStr (x : String) (l : List String) : Bool := l.any (fun y => strEq x y)

/-- Characters of `l` before the first dash. -/
def takeToDash : List Char → List Char
  | [] => []
  | c :: r => if c = '-' then [] else c :: takeToDash r

/-- Characters of `l` after the first dash. -/
def afterDash : List Char → List Char
  | [] => []
  | c :: r => if c = '-' then r else afterDash r

/-- The decimal digit character for `n < 10`. -/
def digitCh (n : Nat) : Char := Char.ofNat (48 + n)

/-- Decimal digits of `n`, given enough `fuel` (structural recursion). -/
def natDigitsAux : Nat → Nat → List Char
  | 0, _ => []
  | fuel + 1, n =>
    if n < 10 then [digitCh n]
    else natDigitsAux fuel (n / 10) ++ [digitCh (n % 10)]

/-- Decimal rendering of a natural number, as produced by Python `str`. -/
def natStr (n : Nat) : String := ⟨natDigitsAux (n + 1) n⟩

/-- Decimal rendering of an integer, as produced by Python `str` /
f-string interpolation (`f"{count}{base}"`). -/
def intStr (i : Int) : String :=
  if i < 0 then "-" ++ natStr i.natAbs else natStr i.toNat

/-! ### Calendar tables (from `pandas._libs.tslibs.ccalendar`) -/

/-- Table `MONTHS` from `ccalendar`: three-letter month abbreviations. -/
def MONTHS : List String :=
  ["JAN", "FEB", "MAR", "APR", "MAY", "JUN",
   "JUL", "AUG", "SEP", "OCT", "NOV", "DEC"]

/-- Table `DAYS` from `ccalendar`: three-letter weekday abbreviations, Monday
first. -/
def DAYS : List String := ["MON", "TUE", "WED", "THU", "FRI", "SAT", "SUN"]

/-- Table `MONTH_NUMBERS` from `ccalendar`: month abbreviation to 0-based month
number (JAN ↦ 0, …, DEC ↦ 11); unknown keys map to `-1` (a Python `KeyError`,
never reached on vocabulary inputs). -/
def MONTH_NUMBERS (m : String) : Int :=
  match MONTHS.indexOf? m with
  | some i => (i : Int)
  | none => -1

/-- Table `MONTH_ALIASES` from `ccalendar`: 1-based month number to three-letter
abbreviation. -/
def MONTH_ALIASES (m : Int) : String :=
  if m = 1 then "JAN" else if m = 2 then "FEB" else if m = 3 then "MAR"
  else if m = 4 then "APR" else if m = 5 then "MAY" else if m = 6 then "JUN"
  else if m = 7 then "JUL" else if m = 8 then "AUG" else if m = 9 then "SEP"
  else if m = 10 then "OCT" else if m = 11 then "NOV" else if m = 12 then "DEC"
  else ""

/-- Table `int_to_weekday` from `ccalendar`: weekday number (Monday = 0) to
three-letter abbreviation. -/
def int_to_weekday (w : Int) : String :=
  if w = 0 then "MON" else if w = 1 then "TUE" else if w = 2 then "WED"
  else if w = 3 then "THU" else if w = 4 then "FRI" else if w = 5 then "SAT"
  else if w = 6 then "SUN" else ""

/-! ### Leap years and the Gregorian calendar -/

/-- Function `isleapyear` from `pandas/tseries/util.py`:
`np.logical_or(year % 400 == 0, np.logical_and(year % 4 == 0, year % 100 > 0))`
applied pointwise (numpy `%` on a positive modulus returns a nonnegative
remainder, which is `Int.emod`). -/
def isleapyear (year : Int) : Bool :=
  year % 400 == 0 || (year % 4 == 0 && decide (0 < year % 100))

/-- Modelled from the spec: number of days of a Gregorian month (calendar
primitives; `pandas._libs.tslibs.ccalendar.get_days_in_month` is not under
`src/`). -/
def daysInMonth (y m : Int) : Int :=
  if m = 2 then (if isleapyear y then 29 else 28)
  else if m = 4 ∨ m = 6 ∨ m = 9 ∨ m = 11 then 30
  else 31

/-- Modelled from the spec: proleptic-Gregorian decomposition of a count of
days since 1970-01-01 into (year, month, day); the field decomposition
`pandas._libs.tslibs.fields.build_field_sarray` is not under `src/`.  This is
the standard civil-from-days algorithm, floor-division based. -/
def civilFromDays (z0 : Int) : Int × Int × Int :=
  let z := z0 + 719468
  let era := Int.fdiv z 146097
  let doe := z - era * 146097
  let yoe := Int.fdiv (doe - Int.fdiv doe 1460 + Int.fdiv doe 36524
      - Int.fdiv doe 146096) 365
  let y := yoe + era * 400
  let doy := doe - (365 * yoe + Int.fdiv yoe 4 - Int.fdiv yoe 100)
  let mp := Int.fdiv (5 * doy + 2) 153
  let d := doy - Int.fdiv (153 * mp + 2) 5 + 1
  let m := mp + (if mp < 10 then 3 else -9)
  (y + (if m ≤ 2 then 1 else 0), m, d)

/-- Periods per day at nanosecond resolution
(`periods_per_day(self._creso)` for a standard `datetime64[ns]` index). -/
def ppd : Int := 86400000000000

/-- One field record of `build_field_sarray` plus the matching
`index.dayofweek` entry: calendar year, month, day of month, and weekday
(Monday = 0). -/
structure DtFields where
  y : Int
  m : Int
  d : Int
  wd : Int
  deriving DecidableEq, Repr

/-- Modelled from the spec: field decomposition of one nanosecond timestamp
(1970-01-01 is a Thursday, weekday 3 with Monday = 0). -/
def fieldsOf (i8 : Int) : DtFields :=
  let days := Int.fdiv i8 ppd
  let c := civilFromDays days
  ⟨c.1, c.2.1, c.2.2, (days + 3) % 7⟩

/-! ### Delta utilities -/

/-- Insert `x` into a sorted list, dropping duplicates. -/
def insertSorted (x : Int) : List Int → List Int
  | [] => [x]
  | y :: ys =>
    if x < y then x :: y :: ys
    else if x = y then y :: ys
    else y :: insertSorted x ys

/-- Sorted list of the distinct elements of `xs`. -/
def sortDedup (xs : List Int) : List Int := xs.foldr insertSorted []

/-- Modelled from the spec: `unique_deltas` (`pandas._libs.algos`, not under
`src/`) — the sorted set of unique consecutive differences
`seq[i+1] - seq[i]`. -/
def unique_deltas (xs : List Int) : List Int :=
  sortDedup (List.zipWith (fun a b => a - b) xs.tail xs)

/-- Consecutive differences in order (`np.diff`). -/
def npDiff (xs : List Int) : List Int :=
  List.zipWith (fun a b => a - b) xs.tail xs

/-- Running sums (`np.cumsum`). -/
def cumsum (xs : List Int) : List Int :=
  (xs.foldl (fun (acc : Int × List Int) x =>
      (acc.1 + x, acc.2 ++ [acc.1 + x])) (0, [])).2

/-- Model of `index._is_monotonic_increasing` (non-strict). -/
def monoInc : List Int → Bool
  | [] => true
  | [_] => true
  | a :: b :: r => a ≤ b && monoInc (b :: r)

/-- Model of `index._is_monotonic_decreasing` (non-strict). -/
def monoDec : List Int → Bool
  | [] => true
  | [_] => true
  | a :: b :: r => b ≤ a && monoDec (b :: r)

/-- Model of `index._is_unique`: no repeated values. -/
def nodupB : List Int → Bool
  | [] => true
  | x :: r => !r.contains x && nodupB r

/-! ### The `_FrequencyInferer` state, as functions of the i8 values -/

/-- Cached `self.deltas`: unique deltas of the (tz-naive) i8 values. -/
def deltas (vals : List Int) : List Int := unique_deltas vals

/-- Cached `self.is_unique`: exactly one distinct delta. -/
def is_unique (vals : List Int) : Bool := (deltas vals).length == 1

/-- Cached `self.day_deltas`: `[x / ppd for x in self.deltas]` with Python true
division, hence rationals. -/
def day_deltas (vals : List Int) : List ℚ :=
  (deltas vals).map (fun x : Int => (x : ℚ) / (ppd : ℚ))

/-- Cached `self.hour_deltas`: `[x / pph for x in self.deltas]` with
`pph = ppd // 24`. -/
def hour_deltas (vals : List Int) : List ℚ :=
  (deltas vals).map (fun x : Int => (x : ℚ) / ((Int.fdiv ppd 24 : Int) : ℚ))

/-- Cached `self.fields` together with `self.index.dayofweek`. -/
def fields (vals : List Int) : List DtFields := vals.map fieldsOf

/-- Cached `self.rep_stamp`: the fields of `Timestamp(self.i8values[0])`. -/
def rep_stamp (vals : List Int) : DtFields := fieldsOf (vals.headD 0)

/-- Cached `self.mdiffs`: unique deltas of `fields["Y"] * 12 + fields["M"]`. -/
def mdiffs (vals : List Int) : List Int :=
  unique_deltas ((fields vals).map (fun f => f.y * 12 + f.m))

/-- Cached `self.ydiffs`: unique deltas of `fields["Y"]`. -/
def ydiffs (vals : List Int) : List Int :=
  unique_deltas ((fields vals).map (fun f => f.y))

/-- Modelled from the spec: `month_position_check`
(`pandas._libs.tslibs.fields`, not under `src/`).  Classifies every element as
calendar/business start or end of its month — day-of-month 1 (or the first
business day: day ≤ 3 on a Monday), or the last day of the month (or the last
business day: within 3 days of month end on a Friday) — returning one of
`"cs"`, `"bs"`, `"ce"`, `"be"`, the end tags taking priority, or `none` when
the dates fit no single tag. -/
def month_position_check (fs : List DtFields) : Option String :=
  let calendar_start := fs.all (fun f => f.d == 1)
  let business_start := fs.all (fun f => f.d == 1 || (f.d ≤ 3 && f.wd == 0))
  let calendar_end := fs.all (fun f => f.d == daysInMonth f.y f.m)
  let business_end := fs.all (fun f =>
      f.d == daysInMonth f.y f.m
        || (daysInMonth f.y f.m - f.d < 3 && f.wd == 4))
  if calendar_end then some "ce"
  else if business_end then some "be"
  else if calendar_start then some "cs"
  else if business_start then some "bs"
  else none

/-- Model of Python `dict.get` on a small string-keyed table. -/
def dictGet (k : String) (l : List (String × String)) : Option String :=
  (l.find? (fun p => strEq p.1 k)).map (fun p => p.2)

/-- Helper `_maybe_add_count`: count-prefix the alias when the (integral) count is
not 1. -/
def maybe_add_count (base : String) (count : Int) : String :=
  if count != 1 then intStr count ++ base else base

/-- Method `_FrequencyInferer._get_annual_rule`. -/
def get_annual_rule (vals : List Int) : Option String :=
  if (ydiffs vals).length > 1 then none
  else if (sortDedup ((fields vals).map (fun f => f.m))).length > 1 then none
  else
    match month_position_check (fields vals) with
    | none => none
    | some pc =>
      dictGet pc [("cs", "AS"), ("bs", "BAS"), ("ce", "A"), ("be", "BA")]

/-- Method `_FrequencyInferer._get_quarterly_rule`. -/
def get_quarterly_rule (vals : List Int) : Option String :=
  if (mdiffs vals).length > 1 then none
  else if !((mdiffs vals).headD 0 % 3 == 0) then none
  else
    match month_position_check (fields vals) with
    | none => none
    | some pc =>
      dictGet pc [("cs", "QS"), ("bs", "BQS"), ("ce", "Q"), ("be", "BQ")]

/-- Method `_FrequencyInferer._get_monthly_rule`. -/
def get_monthly_rule (vals : List Int) : Option String :=
  if (mdiffs vals).length > 1 then none
  else
    match month_position_check (fields vals) with
    | none => none
    | some pc =>
      dictGet pc [("cs", "MS"), ("bs", "BMS"), ("ce", "M"), ("be", "BM")]

/-- Method `_FrequencyInferer._get_daily_rule` (the Python body always returns a
string; divisions are exact on the guarded call paths). -/
def get_daily_rule (vals : List Int) : String :=
  let days := Int.fdiv ((deltas vals).headD 0) ppd
  if days % 7 == 0 then
    maybe_add_count ("W-" ++ int_to_weekday (rep_stamp vals).wd)
      (Int.fdiv days 7)
  else
    maybe_add_count "D" days

/-- Method `_FrequencyInferer._is_business_daily`. -/
def is_business_daily (vals : List Int) : Bool :=
  if day_deltas vals ≠ [(1 : ℚ), 3] then false
  else
    let first_weekday := (rep_stamp vals).wd
    let shifts := (npDiff vals).map (fun s => Int.fdiv s ppd)
    let weekdays := (cumsum shifts).map (fun c => (first_weekday + c) % 7)
    (List.zipWith (fun wd sh =>
        (wd == 0 && sh == 3) || (decide (0 < wd) && wd ≤ 4 && sh == 1))
      weekdays shifts).all id

/-- Method `_FrequencyInferer._get_wom_rule`. -/
def get_wom_rule (vals : List Int) : Option String :=
  let weekdays := sortDedup ((fields vals).map (fun f => f.wd))
  if weekdays.length > 1 then none
  else
    let week_of_months :=
      (sortDedup ((fields vals).map (fun f => Int.fdiv (f.d - 1) 7))).filter
        (fun w => w < 4)
    if week_of_months.length == 0 || week_of_months.length > 1 then none
    else
      let week := week_of_months.headD 0 + 1
      let wd := int_to_weekday (weekdays.headD 0)
      some ("WOM-" ++ intStr week ++ wd)

/-- Method `_FrequencyInferer._infer_daily_rule`. -/
def infer_daily_rule (vals : List Int) : Option String :=
  match get_annual_rule vals with
  | some annual_rule =>
    let nyears := (ydiffs vals).headD 0
    let month := MONTH_ALIASES (rep_stamp vals).m
    some (maybe_add_count (annual_rule ++ "-" ++ month) nyears)
  | none =>
  match get_quarterly_rule vals with
  | some quarterly_rule =>
    let nquarters := Int.fdiv ((mdiffs vals).headD 0) 3
    let month := MONTH_ALIASES
      (if (rep_stamp vals).m % 3 = 0 then 12
       else if (rep_stamp vals).m % 3 = 2 then 11 else 10)
    some (maybe_add_count (quarterly_rule ++ "-" ++ month) nquarters)
  | none =>
  match get_monthly_rule vals with
  | some monthly_rule =>
    some (maybe_add_count monthly_rule ((mdiffs vals).headD 0))
  | none =>
  if is_unique vals then some (get_daily_rule vals)
  else if is_business_daily vals then some "B"
  else match get_wom_rule vals with
  | some wom_rule => some wom_rule
  | none => none

/-- Method `_FrequencyInferer.get_freq` for a tz-naive datetime index (so
`deltas_asi8 = deltas`). -/
def get_freq (vals : List Int) : Option String :=
  if !(monoInc vals || monoDec vals) || !nodupB vals then none
  else
    let delta := (deltas vals).headD 0
    if delta != 0 && delta % ppd == 0 then infer_daily_rule vals
    else if hour_deltas vals ∈
        [[(1 : ℚ), 17], [(1 : ℚ), 65], [(1 : ℚ), 17, 65]] then some "BH"
    else if !is_unique vals then none
    else
      let delta := (deltas vals).headD 0
      let pph := Int.fdiv ppd 24
      let ppm := Int.fdiv pph 60
      let pps := Int.fdiv ppm 60
      if delta % pph == 0 then
        some (maybe_add_count "H" (Int.fdiv delta pph))
      else if delta % ppm == 0 then
        some (maybe_add_count "T" (Int.fdiv delta ppm))
      else if delta % pps == 0 then
        some (maybe_add_count "S" (Int.fdiv delta pps))
      else if delta % Int.fdiv pps 1000 == 0 then
        some (maybe_add_count "L" (Int.fdiv delta (Int.fdiv pps 1000)))
      else if delta % Int.fdiv pps 1000000 == 0 then
        some (maybe_add_count "U" (Int.fdiv delta (Int.fdiv pps 1000000)))
      else
        some (maybe_add_count "N" delta)

/-- Method `_TimedeltaFrequencyInferer._infer_daily_rule`: only the
even-spacing daily/weekly classification; falls through to `None`
otherwise. -/
def infer_daily_rule_td (vals : List Int) : Option String :=
  if is_unique vals then some (get_daily_rule vals) else none

/-- Method `get_freq` as inherited by `_TimedeltaFrequencyInferer` (same decision
procedure, with the timedelta `_infer_daily_rule`). -/
def get_freq_td (vals : List Int) : Option String :=
  if !(monoInc vals || monoDec vals) || !nodupB vals then none
  else
    let delta := (deltas vals).headD 0
    if delta != 0 && delta % ppd == 0 then infer_daily_rule_td vals
    else if hour_deltas vals ∈
        [[(1 : ℚ), 17], [(1 : ℚ), 65], [(1 : ℚ), 17, 65]] then some "BH"
    else if !is_unique vals then none
    else
      let delta := (deltas vals).headD 0
      let pph := Int.fdiv ppd 24
      let ppm := Int.fdiv pph 60
      let pps := Int.fdiv ppm 60
      if delta % pph == 0 then
        some (maybe_add_count "H" (Int.fdiv delta pph))
      else if delta % ppm == 0 then
        some (maybe_add_count "T" (Int.fdiv delta ppm))
      else if delta % pps == 0 then
        some (maybe_add_count "S" (Int.fdiv delta pps))
      else if delta % Int.fdiv pps 1000 == 0 then
        some (maybe_add_count "L" (Int.fdiv delta (Int.fdiv pps 1000)))
      else if delta % Int.fdiv pps 1000000 == 0 then
        some (maybe_add_count "U" (Int.fdiv delta (Int.fdiv pps 1000000)))
      else
        some (maybe_add_count "N" delta)

/-- The dtype-dispatch cases of `infer_freq` that the claims exercise:
a tz-naive `DatetimeIndex`, a `TimedeltaIndex`, a `PeriodDtype` index, and an
`Index` of numeric dtype (`dtype.kind in "iufcb"`). -/
inductive FreqInput where
  | datetimeIndex (vals : List Int)
  | timedeltaIndex (vals : List Int)
  | periodIndex (vals : List Int)
  | numericIndex (vals : List Int)

/-- The exception kinds `infer_freq` raises. -/
inductive FreqError where
  | typeError (msg : String)
  | valueError (msg : String)
  deriving DecidableEq

/-- Top-level `infer_freq`: dtype dispatch, the `< 3` length guard of
`_FrequencyInferer.__init__` (a raised `ValueError`), then `get_freq`. -/
def infer_freq (index : FreqInput) : Except FreqError (Option String) :=
  match index with
  | .periodIndex _ =>
    .error (.typeError
      "PeriodIndex given. Check the freq attribute instead of using infer_freq.")
  | .numericIndex _ =>
    .error (.typeError "cannot infer freq from a non-convertible index")
  | .timedeltaIndex vals =>
    if vals.length < 3 then
      .error (.valueError "Need at least 3 dates to infer frequency")
    else .ok (get_freq_td vals)
  | .datetimeIndex vals =>
    if vals.length < 3 then
      .error (.valueError "Need at least 3 dates to infer frequency")
    else .ok (get_freq vals)

/-! ### Frequency comparison (`is_subperiod` / `is_superperiod`) -/

/-- Modelled from the spec: `get_rule_month`
(`pandas._libs.tslibs.parsing`, not under `src/`) — the month suffix of an
annual/quarterly alias (the second dash-separated token, uppercased),
defaulting to `"DEC"` when the alias has no dash. -/
def get_rule_month (s : String) : String :=
  let u := strUpper s
  if u.data.contains '-' then ⟨takeToDash (afterDash u.data)⟩ else "DEC"

/-- Helper `_quarter_months_conform`: month numbers agree modulo 3. -/
def quarter_months_conform (source target : String) : Bool :=
  MONTH_NUMBERS source % 3 == MONTH_NUMBERS target % 3

/-- Helper `_is_annual`. -/
def is_annual (rule : String) : Bool :=
  let rule := strUpper rule
  strEq rule "A" || strBegins rule "A-"

/-- Helper `_is_quarterly`. -/
def is_quarterly (rule : String) : Bool :=
  let rule := strUpper rule
  strEq rule "Q" || strBegins rule "Q-" || strBegins rule "BQ"

/-- Helper `_is_monthly`. -/
def is_monthly (rule : String) : Bool :=
  let rule := strUpper rule
  strEq rule "M" || strEq rule "BM"

/-- Helper `_is_weekly`. -/
def is_weekly (rule : String) : Bool :=
  let rule := strUpper rule
  strEq rule "W" || strBegins rule "W-"

/-- Helper `_maybe_coerce_freq` on string input: uppercase the rule code. -/
def maybe_coerce_freq (code : String) : String := strUpper code

/-- Function `is_subperiod` (string inputs; `None` inputs return `False` and are not
part of the alias vocabulary). -/
def is_subperiod (source target : String) : Bool :=
  let source := maybe_coerce_freq source
  let target := maybe_coerce_freq target
  if is_annual target then
    if is_quarterly source then
      quarter_months_conform (get_rule_month source) (get_rule_month target)
    else
      memStr source ["D", "C", "B", "M", "H", "T", "S", "L", "U", "N"]
  else if is_quarterly target then
    memStr source ["D", "C", "B", "M", "H", "T", "S", "L", "U", "N"]
  else if is_monthly target then
    memStr source ["D", "C", "B", "H", "T", "S", "L", "U", "N"]
  else if is_weekly target then
    memStr source [target, "D", "C", "B", "H", "T", "S", "L", "U", "N"]
  else if strEq target "B" then
    memStr source ["B", "H", "T", "S", "L", "U", "N"]
  else if strEq target "C" then
    memStr source ["C", "H", "T", "S", "L", "U", "N"]
  else if strEq target "D" then
    memStr source ["D", "H", "T", "S", "L", "U", "N"]
  else if strEq target "H" then
    memStr source ["H", "T", "S", "L", "U", "N"]
  else if strEq target "T" then
    memStr source ["T", "S", "L", "U", "N"]
  else if strEq target "S" then
    memStr source ["S", "L", "U", "N"]
  else if strEq target "L" then
    memStr source ["L", "U", "N"]
  else if strEq target "U" then
    memStr source ["U", "N"]
  else if strEq target "N" then
    memStr source ["N"]
  else
    false

/-- Function `is_superperiod` (string inputs). -/
def is_superperiod (source target : String) : Bool :=
  let source := maybe_coerce_freq source
  let target := maybe_coerce_freq target
  if is_annual source then
    if is_annual target then
      strEq (get_rule_month source) (get_rule_month target)
    else if is_quarterly target then
      quarter_months_conform (get_rule_month source) (get_rule_month target)
    else
      memStr target ["D", "C", "B", "M", "H", "T", "S", "L", "U", "N"]
  else if is_quarterly source then
    memStr target ["D", "C", "B", "M", "H", "T", "S", "L", "U", "N"]
  else if is_monthly source then
    memStr target ["D", "C", "B", "H", "T", "S", "L", "U", "N"]
  else if is_weekly source then
    memStr target [source, "D", "C", "B", "H", "T", "S", "L", "U", "N"]
  else if strEq source "B" then
    memStr target ["D", "C", "B", "H", "T", "S", "L", "U", "N"]
  else if strEq source "C" then
    memStr target ["D", "C", "B", "H", "T", "S", "L", "U", "N"]
  else if strEq source "D" then
    memStr target ["D", "C", "B", "H", "T", "S", "L", "U", "N"]
  else if strEq source "H" then
    memStr target ["H", "T", "S", "L", "U", "N"]
  else if strEq source "T" then
    memStr target ["T", "S", "L", "U", "N"]
  else if strEq source "S" then
    memStr target ["S", "L", "U", "N"]
  else if strEq source "L" then
    memStr target ["L", "U", "N"]
  else if strEq source "U" then
    memStr target ["U", "N"]
  else if strEq source "N" then
    memStr target ["N"]
  else
    false

/-! ### The closed alias vocabulary (spec section 6) -/

/-- The closed output vocabulary of the inferrer, without integer count
prefixes: `D`, `B`, `BH`, `W-<DAY>`, `WOM-<k><DAY>`, the monthly family,
the quarterly and annual families with month suffix, and the sub-daily
aliases. -/
def closedVocab : List String :=
  ["D", "B", "BH", "M", "MS", "BM", "BMS", "H", "T", "S", "L", "U", "N"]
    ++ DAYS.map (fun d => "W-" ++ d)
    ++ ([1, 2, 3, 4].flatMap (fun k =>
        DAYS.map (fun d => "WOM-" ++ intStr k ++ d)))
    ++ (["Q", "QS", "BQ", "BQS"].flatMap (fun p =>
        MONTHS.map (fun m => p ++ "-" ++ m)))
    ++ (["A", "AS", "BA", "BAS"].flatMap (fun p =>
        MONTHS.map (fun m => p ++ "-" ++ m)))

/-- The exact pairs on which subperiod/superperiod duality fails: an annual
alias paired with itself, and the business-daily/calendar-daily pair in either
order. -/
def dualityException (s t : String) : Prop :=
  (s = t ∧ s ∈ MONTHS.map (fun m => "A-" ++ m))
    ∨ (s = "B" ∧ t = "D") ∨ (s = "D" ∧ t = "B")

instance (s t : String) : Decidable (dualityException s t) := by
  unfold dualityException; infer_instance

/-- Boolean form of the duality exception set, for the exhaustive check. -/
def dualityExceptionB (s t : String) : Bool :=
  (strEq s t && memStr s (MONTHS.map (fun m => "A-" ++ m)))
    || (strEq s "B" && strEq t "D")
    || (strEq s "D" && strEq t "B")

/-- One ordered vocabulary pair satisfies the amended duality statement. -/
def dualityPairOK (s t : String) : Bool :=
  if dualityExceptionB s t then
    !(is_subperiod s t) && is_superperiod t s
  else
    is_subperiod s t == is_superperiod t s

/-- Exhaustive duality check over all ordered vocabulary pairs. -/
def dualityCheck : Bool :=
  closedVocab.all (fun s => closedVocab.all (fun t => dualityPairOK s t))

/-- The alias families that calendar-aware classification produces: annual
(`A*`), quarterly (`Q*`, `BQ*`), monthly (`M*`, `BM*`), business daily
(`B`), and week-of-month (`WOM*`). -/
def inCalendarFamilies (s : String) : Bool :=
  strBegins s "A" || strBegins s "Q" || strBegins s "M"
    || strBegins s "BA" || strBegins s "BQ" || strBegins s "BM"
    || strEq s "B" || strBegins s "WOM"

/-- Characters an integer count prefix may consist of: a minus sign or a
decimal digit. -/
def isCountChar (c : Char) : Bool :=
  c == '-' || (decide (48 ≤ c.toNat) && decide (c.toNat ≤ 57))

/-- Remove a leading integer count (minus sign and digits) from an alias,
exposing the base alias that `_maybe_add_count` prefixed. -/
def stripCount (s : String) : String := ⟨s.data.dropWhile isCountChar⟩

/-! ### Helper lemmas -/

/-- The character data of an appended string is the appended character
data. -/
theorem strData_append (a b : String) : (a ++ b).data = a.data ++ b.data := by
  cases a; cases b; rfl

/-- Python float comparisons of `[x / u for x in l]` against lists of small
integers are exact; this bridges the rational model to integer lists. -/
theorem map_intCast_div (u : Int) (hu : (u : ℚ) ≠ 0) :
    ∀ (l tgt : List Int),
      l.map (fun x : Int => (x : ℚ) / (u : ℚ))
          = tgt.map (fun n : Int => (n : ℚ))
        ↔ l = tgt.map (fun n => n * u) := by
  intro l
  induction l with
  | nil => intro tgt; cases tgt <;> simp
  | cons x xs ih =>
    intro tgt
    cases tgt with
    | nil => simp
    | cons t ts =>
      simp only [List.map_cons, List.cons.injEq]
      rw [ih ts]
      constructor
      · rintro ⟨h1, h2⟩
        refine ⟨?_, h2⟩
        rw [div_eq_iff hu] at h1
        exact_mod_cast h1
      · rintro ⟨h1, h2⟩
        refine ⟨?_, h2⟩
        rw [div_eq_iff hu]
        exact_mod_cast congrArg (fun z : Int => (z : ℚ)) h1

/-- Evaluation bridge for `hour_deltas` against an integer target list. -/
theorem hour_deltas_cast (vals : List Int) (tgt : List Int) :
    hour_deltas vals = tgt.map (fun n : Int => (n : ℚ))
      ↔ deltas vals = tgt.map (fun n => n * 3600000000000) := by
  have h24 : Int.fdiv ppd 24 = 3600000000000 := by decide
  unfold hour_deltas
  rw [h24]
  exact map_intCast_div 3600000000000 (by norm_num) (deltas vals) tgt

/-- Evaluation bridge for `day_deltas` against an integer target list. -/
theorem day_deltas_cast (vals : List Int) (tgt : List Int) :
    day_deltas vals = tgt.map (fun n : Int => (n : ℚ))
      ↔ deltas vals = tgt.map (fun n => n * 86400000000000) := by
  unfold day_deltas
  have hp : (ppd : ℚ) = ((86400000000000 : Int) : ℚ) := by norm_num [ppd]
  rw [hp]
  exact map_intCast_div 86400000000000 (by norm_num) (deltas vals) tgt

/-- Digit characters are in the ASCII digit range. -/
theorem digitCh_bounds : ∀ k, k < 10 →
    48 ≤ (digitCh k).toNat ∧ (digitCh k).toNat ≤ 57 := by decide

/-- Every character rendered for a natural number is an ASCII digit. -/
theorem natDigitsAux_digits : ∀ fuel n, ∀ c ∈ natDigitsAux fuel n,
    48 ≤ c.toNat ∧ c.toNat ≤ 57 := by
  intro fuel
  induction fuel with
  | zero =>
    intro n c hc
    cases hc
  | succ fuel ih =>
    intro n c hc
    unfold natDigitsAux at hc
    split at hc
    · rename_i hn
      rw [List.mem_singleton] at hc
      subst hc
      exact digitCh_bounds n hn
    · rw [List.mem_append] at hc
      rcases hc with hc | hc
      · exact ih (n / 10) c hc
      · rw [List.mem_singleton] at hc
        subst hc
        exact digitCh_bounds _ (by omega)

/-- Every character of a rendered integer count is a minus sign or a
digit. -/
theorem intStr_count_chars : ∀ (i : Int), ∀ c ∈ (intStr i).data,
    isCountChar c = true := by
  intro i
  have hdig : ∀ (m : Nat), ∀ c ∈ natDigitsAux (m + 1) m,
      isCountChar c = true := by
    intro m c hm
    have hb := natDigitsAux_digits (m + 1) m c hm
    unfold isCountChar
    simp only [Bool.or_eq_true, Bool.and_eq_true, decide_eq_true_eq]
    exact Or.inr hb
  by_cases hneg : i < 0
  · have hd : (intStr i).data
        = '-' :: natDigitsAux (i.natAbs + 1) i.natAbs := by
      unfold intStr
      rw [if_pos hneg, strData_append]
      rfl
    intro c hc
    rw [hd, List.mem_cons] at hc
    rcases hc with rfl | hc
    · decide
    · exact hdig i.natAbs c hc
  · have hd : (intStr i).data = natDigitsAux (i.toNat + 1) i.toNat := by
      unfold intStr
      rw [if_neg hneg]
      rfl
    intro c hc
    rw [hd] at hc
    exact hdig i.toNat c hc

/-- Dropping while a predicate holds skips any block of characters that all
satisfy it. -/
theorem dropWhile_append_all (p : Char → Bool) :
    ∀ (l m : List Char), (∀ c ∈ l, p c = true) →
      List.dropWhile p (l ++ m) = List.dropWhile p m := by
  intro l
  induction l with
  | nil => intro m _; rfl
  | cons a l ih =>
    intro m h
    have ha : p a = true := h a (List.mem_cons_self a l)
    rw [List.cons_append, List.dropWhile_cons_of_pos ha]
    exact ih m (fun c hc => h c (List.mem_cons_of_mem a hc))

/-- The weekday table takes only eight values. -/
theorem int_to_weekday_cases : ∀ w : Int,
    int_to_weekday w ∈
      ["MON", "TUE", "WED", "THU", "FRI", "SAT", "SUN", ""] := by
  intro w
  unfold int_to_weekday
  split_ifs <;> simp

/-- A daily, weekly, or sub-daily base alias is in no calendar family
(annual/quarterly/monthly/`B`/`WOM`). -/
theorem stripCount_base_not_calendar (base : String)
    (hb : base ∈ (["D", "H", "T", "S", "L", "U", "N"] : List String)
        ∨ ∃ w : Int, base = "W-" ++ int_to_weekday w) :
    inCalendarFamilies (stripCount base) = false := by
  rcases hb with hb | ⟨w, rfl⟩
  · fin_cases hb <;> decide
  · have hmem := int_to_weekday_cases w
    simp only [List.mem_cons, List.not_mem_nil, or_false] at hmem
    rcases hmem with h | h | h | h | h | h | h | h <;> rw [h] <;> decide

/-- Count-prefixing a daily, weekly, or sub-daily base alias never produces
an alias of a calendar family (annual/quarterly/monthly/`B`/`WOM`), even
after the count prefix is removed again. -/
theorem mac_not_calendar (base : String) (n : Int)
    (hb : base ∈ (["D", "H", "T", "S", "L", "U", "N"] : List String)
        ∨ ∃ w : Int, base = "W-" ++ int_to_weekday w) :
    inCalendarFamilies (stripCount (maybe_add_count base n)) = false := by
  unfold maybe_add_count
  split
  · have hstrip : stripCount (intStr n ++ base) = stripCount base := by
      unfold stripCount
      rw [strData_append,
        dropWhile_append_all isCountChar _ _ (intStr_count_chars n)]
    rw [hstrip]
    exact stripCount_base_not_calendar base hb
  · exact stripCount_base_not_calendar base hb

/-- A week-of-month alias always carries the `WOM-` head. -/
theorem get_wom_rule_shape (vals : List Int) (w : String)
    (h : get_wom_rule vals = some w) : ∃ x, w = "WOM-" ++ x := by
  simp only [get_wom_rule] at h
  split at h
  · cases h
  · split at h
    · cases h
    · injection h with h'
      exact ⟨_, h'.symm⟩

/-- A week-of-month alias is never the business-daily alias. -/
theorem wom_ne_B (x : String) : "WOM-" ++ x ≠ "B" := by
  intro he
  have hd := congrArg String.data he
  rw [strData_append] at hd
  injection hd with h1 _
  exact absurd h1 (by decide)

/-- Every result of the timedelta inferrer is nothing, business-hourly, or a
count-prefixed daily/weekly/sub-daily alias. -/
theorem get_freq_td_shape (vals : List Int) :
    ∀ r, get_freq_td vals = r →
      r = none ∨ r = some "BH" ∨
      ∃ base n, (base ∈ (["D", "H", "T", "S", "L", "U", "N"] : List String)
          ∨ ∃ w : Int, base = "W-" ++ int_to_weekday w)
        ∧ r = some (maybe_add_count base n) := by
  intro r hr
  simp only [get_freq_td, infer_daily_rule_td, get_daily_rule] at hr
  repeat' split at hr
  all_goals first
    | exact Or.inl hr.symm
    | exact Or.inr (Or.inl hr.symm)
    | exact Or.inr (Or.inr ⟨_, _, Or.inr ⟨(rep_stamp vals).wd, rfl⟩, hr.symm⟩)
    | exact Or.inr (Or.inr ⟨"D", _, Or.inl (by simp), hr.symm⟩)
    | exact Or.inr (Or.inr ⟨"H", _, Or.inl (by simp), hr.symm⟩)
    | exact Or.inr (Or.inr ⟨"T", _, Or.inl (by simp), hr.symm⟩)
    | exact Or.inr (Or.inr ⟨"S", _, Or.inl (by simp), hr.symm⟩)
    | exact Or.inr (Or.inr ⟨"L", _, Or.inl (by simp), hr.symm⟩)
    | exact Or.inr (Or.inr ⟨"U", _, Or.inl (by simp), hr.symm⟩)
    | exact Or.inr (Or.inr ⟨"N", _, Or.inl (by simp), hr.symm⟩)

/-- Boolean string equality agrees with propositional equality. -/
theorem strEq_iff (a b : String) : strEq a b = true ↔ a = b := by
  cases a
  cases b
  simp only [strEq, beq_iff_eq]
  exact ⟨fun h => by rw [h], fun h => by injection h⟩

/-- Boolean membership agrees with propositional membership. -/
theorem memStr_iff (x : String) (l : List String) :
    memStr x l = true ↔ x ∈ l := by
  unfold memStr
  rw [List.any_eq_true]
  constructor
  · rintro ⟨y, hy, he⟩
    rw [(strEq_iff x y).mp he]
    exact hy
  · intro hx
    exact ⟨x, hx, (strEq_iff x x).mpr rfl⟩

/-- The boolean exception test agrees with the exception predicate. -/
theorem dualityExceptionB_iff (s t : String) :
    dualityExceptionB s t = true ↔ dualityException s t := by
  unfold dualityExceptionB dualityException
  simp only [Bool.or_eq_true, Bool.and_eq_true, strEq_iff, memStr_iff,
    or_assoc]

set_option maxHeartbeats 4000000 in
set_option maxRecDepth 10000 in
/-- The exhaustive duality check evaluates to true. -/
theorem dualityCheck_true : dualityCheck = true := by rfl

/-- Unfolding one pair of the duality check. -/
theorem dualityPairOK_spec (s t : String) (h : dualityPairOK s t = true) :
    (dualityException s t →
      is_subperiod s t = false ∧ is_superperiod t s = true) ∧
    (¬ dualityException s t →
      is_subperiod s t = is_superperiod t s) := by
  unfold dualityPairOK at h
  split at h
  · rename_i hexc
    have he := (dualityExceptionB_iff s t).mp hexc
    rw [Bool.and_eq_true, Bool.not_eq_true'] at h
    exact ⟨fun _ => h, fun hne => absurd he hne⟩
  · rename_i hexc
    have hne : ¬ dualityException s t := fun hd =>
      hexc ((dualityExceptionB_iff s t).mpr hd)
    exact ⟨fun hd => absurd hd hne, fun _ => eq_of_beq h⟩

/-! ### Claims -/

/-- C1 counterexample: the duality `is_subperiod(s, t) = is_superperiod(t, s)`
fails on the vocabulary pair `s = "B"`, `t = "D"`: downsampling business-daily
to calendar-daily is rejected while upsampling calendar-daily to
business-daily is accepted. -/
theorem C1_counterexample :
    is_subperiod "B" "D" = false ∧ is_superperiod "D" "B" = true := by
  constructor <;> decide

/-- C1 (amended): for all alias pairs (s, t) drawn from the closed frequency
vocabulary, `is_subperiod(s, t)` equals `is_superperiod(t, s)` except when
s and t are the same annual `A-<MON>` alias, or when (s, t) is ("B", "D") or
("D", "B"); on those exceptional pairs `is_subperiod` returns false while the
flipped `is_superperiod` returns true. -/
theorem C1_duality_amended :
    ∀ s ∈ closedVocab, ∀ t ∈ closedVocab,
      (dualityException s t →
        is_subperiod s t = false ∧ is_superperiod t s = true) ∧
      (¬ dualityException s t →
        is_subperiod s t = is_superperiod t s) := by
  intro s hs t ht
  have hall : closedVocab.all
      (fun s => closedVocab.all (fun t => dualityPairOK s t)) = true :=
    dualityCheck_true
  have h1 := (List.all_eq_true.mp hall) s hs
  have h2 := (List.all_eq_true.mp h1) t ht
  exact dualityPairOK_spec s t h2

/-- C1 witness: a vocabulary pair outside the exception set on which the
duality holds. -/
theorem C1_witness :
    is_subperiod "M" "A-DEC" = is_superperiod "A-DEC" "M" :=
  (C1_duality_amended "M" (by decide) "A-DEC" (by decide)).2 (by decide)

/-- C2 counterexample: a 2-element monotonic duplicate-free sequence makes
`infer_freq` raise `ValueError` rather than return the `None` the claim
asserts. -/
theorem C2_counterexample :
    infer_freq (.datetimeIndex [0, 86400000000000]) =
      .error (.valueError "Need at least 3 dates to infer frequency") := rfl

/-- C2 (amended): an input with fewer than 3 elements makes `infer_freq`
raise `ValueError`; an input with at least 3 elements that is non-monotonic
or contains repeated timestamps makes `infer_freq` return `None` without
raising. -/
theorem C2_amended :
    (∀ vals : List Int, vals.length < 3 →
        infer_freq (.datetimeIndex vals) =
          .error (.valueError "Need at least 3 dates to infer frequency")) ∧
    (∀ vals : List Int, 3 ≤ vals.length →
        ((monoInc vals = false ∧ monoDec vals = false) ∨ nodupB vals = false) →
        infer_freq (.datetimeIndex vals) = .ok none) := by
  constructor
  · intro vals h
    simp [infer_freq, h]
  · intro vals h3 hcond
    have hlt : ¬ vals.length < 3 := by omega
    simp only [infer_freq, if_neg hlt]
    unfold get_freq
    rcases hcond with ⟨h1, h2⟩ | h
    · rw [h1, h2]; simp
    · rw [h]; simp

/-- C2 witness: the amended claim at a 1-element input and at a concrete
non-monotonic 3-element input. -/
theorem C2_witness :
    infer_freq (.datetimeIndex [0]) =
      .error (.valueError "Need at least 3 dates to infer frequency") ∧
    infer_freq (.datetimeIndex [0, 172800000000000, 86400000000000]) =
      .ok none :=
  ⟨C2_amended.1 [0] (by decide),
   C2_amended.2 [0, 172800000000000, 86400000000000] (by decide)
     (Or.inl ⟨by decide, by decide⟩)⟩

/-- C3: for a monotonic duplicate-free datetime input whose first unique
delta is a nonzero day multiple but whose deltas are not a single value, and
on which the annual, quarterly and monthly checks all fail, `infer_freq`
returns "B" exactly when the day-granularity deltas are [1, 3] and every
weekday reconstructed from the first element via the cumulative day shifts
lands on Monday after a 3-day shift and on Tuesday through Friday after a
1-day shift. -/
theorem C3_business_daily :
    ∀ vals : List Int, 3 ≤ vals.length →
      (monoInc vals = true ∨ monoDec vals = true) → nodupB vals = true →
      (deltas vals).headD 0 ≠ 0 → (deltas vals).headD 0 % ppd = 0 →
      is_unique vals = false →
      get_annual_rule vals = none → get_quarterly_rule vals = none →
      get_monthly_rule vals = none →
      (infer_freq (.datetimeIndex vals) = .ok (some "B") ↔
        (day_deltas vals = [(1 : ℚ), 3] ∧
          (List.zipWith (fun wd sh =>
              (wd == 0 && sh == 3)
                || (decide (0 < wd) && wd ≤ 4 && sh == 1))
            ((cumsum ((npDiff vals).map (fun s => Int.fdiv s ppd))).map
              (fun c => ((rep_stamp vals).wd + c) % 7))
            ((npDiff vals).map (fun s => Int.fdiv s ppd))).all id = true)) := by
  intro vals h3 hm hu hd0 hmod huniq han hq hmo
  have hlt : ¬ vals.length < 3 := by omega
  have hm' : (monoInc vals || monoDec vals) = true := by
    rcases hm with h | h <;> simp [h]
  have hc1 : (((deltas vals).headD 0 != 0)
      && ((deltas vals).headD 0 % ppd == 0)) = true := by
    simp only [Bool.and_eq_true, bne_iff_ne, ne_eq, beq_iff_eq]
    exact ⟨hd0, hmod⟩
  have hbd : is_business_daily vals = true ↔
      (day_deltas vals = [(1 : ℚ), 3] ∧
        (List.zipWith (fun wd sh =>
            (wd == 0 && sh == 3)
              || (decide (0 < wd) && wd ≤ 4 && sh == 1))
          ((cumsum ((npDiff vals).map (fun s => Int.fdiv s ppd))).map
            (fun c => ((rep_stamp vals).wd + c) % 7))
          ((npDiff vals).map (fun s => Int.fdiv s ppd))).all id = true) := by
    unfold is_business_daily
    split
    · rename_i hne
      simp [hne]
    · rename_i hne
      rw [not_not] at hne
      simp [hne]
  simp only [infer_freq, if_neg hlt]
  unfold get_freq
  rw [hm', hu]
  simp only [hc1, Bool.not_true, Bool.or_self, Bool.false_or, if_false,
    if_true]
  unfold infer_daily_rule
  rw [han, hq, hmo, huniq]
  simp only [Bool.false_eq_true, if_false]
  by_cases hb : is_business_daily vals = true
  · simp only [hb, if_true, Except.ok.injEq, Option.some.injEq]
    simp only [true_iff]
    exact hbd.mp hb
  · have hb' : is_business_daily vals = false := by
      simpa using hb
    have hnr : ¬ (day_deltas vals = [(1 : ℚ), 3] ∧
        (List.zipWith (fun wd sh =>
            (wd == 0 && sh == 3)
              || (decide (0 < wd) && wd ≤ 4 && sh == 1))
          ((cumsum ((npDiff vals).map (fun s => Int.fdiv s ppd))).map
            (fun c => ((rep_stamp vals).wd + c) % 7))
          ((npDiff vals).map (fun s => Int.fdiv s ppd))).all id = true) :=
      fun hr => hb (hbd.mpr hr)
    simp only [hb', Bool.false_eq_true, if_false]
    have hres : (match get_wom_rule vals with
        | some wom_rule => some wom_rule
        | none => (none : Option String)) = get_wom_rule vals := by
      cases get_wom_rule vals <;> rfl
    rw [hres]
    cases hw : get_wom_rule vals with
    | none =>
      constructor
      · intro hcc
        injection hcc with h2
        exact Option.noConfusion h2
      · intro hr
        exact absurd hr hnr
    | some w =>
      obtain ⟨x, rfl⟩ := get_wom_rule_shape vals w hw
      constructor
      · intro hcc
        injection hcc with h2
        injection h2 with h3
        exact absurd h3 (wom_ne_B x)
      · intro hr
        exact absurd hr hnr

/-- C3 witness: two business weeks of Mon-Fri dates in August 2023 are
classified "B". -/
theorem C3_witness :
    infer_freq (.datetimeIndex
      [1691366400000000000, 1691452800000000000, 1691539200000000000,
       1691625600000000000, 1691712000000000000, 1691971200000000000,
       1692057600000000000, 1692144000000000000, 1692230400000000000,
       1692316800000000000]) = .ok (some "B") := by
  have h := C3_business_daily
    [1691366400000000000, 1691452800000000000, 1691539200000000000,
     1691625600000000000, 1691712000000000000, 1691971200000000000,
     1692057600000000000, 1692144000000000000, 1692230400000000000,
     1692316800000000000]
    (by decide) (Or.inl (by decide)) (by decide) (by decide) (by decide)
    (by decide) (by decide) (by decide) (by decide)
  rw [h]
  constructor
  · have hc : ([1, 3] : List Int).map (fun n : Int => (n : ℚ))
        = [(1 : ℚ), 3] := by norm_num
    rw [← hc, day_deltas_cast]
    decide
  · decide

/-- C4: for a monotonic duplicate-free datetime input whose first unique
delta is nonzero and not a multiple of the periods in a day, if the
hour-granularity deltas equal [1, 17], [1, 65] or [1, 17, 65], then
`infer_freq` returns "BH", before any sub-daily divisibility classification
is attempted. -/
theorem C4_business_hour :
    ∀ vals : List Int, 3 ≤ vals.length →
      (monoInc vals = true ∨ monoDec vals = true) → nodupB vals = true →
      (deltas vals).headD 0 ≠ 0 → (deltas vals).headD 0 % ppd ≠ 0 →
      hour_deltas vals ∈
        [[(1 : ℚ), 17], [(1 : ℚ), 65], [(1 : ℚ), 17, 65]] →
      infer_freq (.datetimeIndex vals) = .ok (some "BH") := by
  intro vals h3 hm hu hd0 hmod hh
  have hlt : ¬ vals.length < 3 := by omega
  have hm' : (monoInc vals || monoDec vals) = true := by
    rcases hm with h | h <;> simp [h]
  have hnd : ¬ (ppd ∣ (deltas vals).headD 0) := fun h =>
    hmod (Int.emod_eq_zero_of_dvd h)
  simp only [infer_freq, if_neg hlt]
  unfold get_freq
  rw [hm', hu]
  simp [hh]
  intro h1 h2
  exact absurd h2 (by simpa using hnd)

/-- C4 witness: one business day of hourly stamps (09:00-16:00) plus the next
day's 09:00 is classified "BH". -/
theorem C4_witness :
    infer_freq (.datetimeIndex
      [1691398800000000000, 1691402400000000000, 1691406000000000000,
       1691409600000000000, 1691413200000000000, 1691416800000000000,
       1691420400000000000, 1691424000000000000, 1691485200000000000]) =
      .ok (some "BH") := by
  apply C4_business_hour
  · decide
  · exact Or.inl (by decide)
  · decide
  · decide
  · decide
  · have h1 : hour_deltas
        [1691398800000000000, 1691402400000000000, 1691406000000000000,
         1691409600000000000, 1691413200000000000, 1691416800000000000,
         1691420400000000000, 1691424000000000000, 1691485200000000000] =
        [(1 : ℚ), 17] := by
      have hc : ([1, 17] : List Int).map (fun n : Int => (n : ℚ))
          = [(1 : ℚ), 17] := by norm_num
      rw [← hc, hour_deltas_cast]
      decide
    rw [h1]
    simp

/-- C5: when the quarterly rule fires (annual failed, single month-delta
divisible by 3, month-position check succeeds), the alias is the tag from
cs ↦ QS, bs ↦ BQS, ce ↦ Q, be ↦ BQ suffixed with a dash and the month
abbreviation of mapping (first month mod 3) through 0 ↦ 12, 2 ↦ 11, 1 ↦ 10,
and is count-prefixed with month-delta / 3 exactly when that count is not
1. -/
theorem C5_quarterly_alias :
    ∀ vals : List Int, 3 ≤ vals.length →
      (monoInc vals = true ∨ monoDec vals = true) → nodupB vals = true →
      (deltas vals).headD 0 ≠ 0 → (deltas vals).headD 0 % ppd = 0 →
      get_annual_rule vals = none →
      ∀ md, mdiffs vals = [md] → md % 3 = 0 →
      ∀ pc, month_position_check (fields vals) = some pc →
      pc ∈ (["cs", "bs", "ce", "be"] : List String) →
      ∀ tag, tag = (if pc = "cs" then "QS" else if pc = "bs" then "BQS"
        else if pc = "ce" then "Q" else "BQ") →
      infer_freq (.datetimeIndex vals) = .ok (some (
        if Int.fdiv md 3 = 1 then
          tag ++ "-" ++ MONTH_ALIASES
            (if (rep_stamp vals).m % 3 = 0 then 12
             else if (rep_stamp vals).m % 3 = 2 then 11 else 10)
        else
          intStr (Int.fdiv md 3) ++ (tag ++ "-" ++ MONTH_ALIASES
            (if (rep_stamp vals).m % 3 = 0 then 12
             else if (rep_stamp vals).m % 3 = 2 then 11 else 10)))) := by
  intro vals h3 hm hu hd0 hmod han md hmd h3d pc hpc hpcmem tag htag
  have hlt : ¬ vals.length < 3 := by omega
  have hm' : (monoInc vals || monoDec vals) = true := by
    rcases hm with h | h <;> simp [h]
  have hc1 : (((deltas vals).headD 0 != 0)
      && ((deltas vals).headD 0 % ppd == 0)) = true := by
    simp only [Bool.and_eq_true, bne_iff_ne, ne_eq, beq_iff_eq]
    exact ⟨hd0, hmod⟩
  have hq : get_quarterly_rule vals = some tag := by
    unfold get_quarterly_rule
    rw [hmd, hpc]
    simp only [List.length_cons, List.length_nil, List.headD_cons]
    norm_num [h3d]
    simp only [List.mem_cons, List.not_mem_nil, or_false] at hpcmem
    rcases hpcmem with rfl | rfl | rfl | rfl <;> subst htag <;> decide
  simp only [infer_freq, if_neg hlt]
  unfold get_freq
  rw [hm', hu]
  simp only [hc1, Bool.not_true, Bool.or_self, Bool.false_or, if_false,
    if_true]
  unfold infer_daily_rule
  rw [han, hq, hmd]
  simp only [List.headD_cons, maybe_add_count, bne_iff_ne, ne_eq,
    beq_iff_eq, ite_not]
  simp

/-- C5 witness: quarter-start dates 2023-01-01, 2023-04-01 and 2023-07-01 are
classified "QS-OCT". -/
theorem C5_witness :
    infer_freq (.datetimeIndex
      [1672531200000000000, 1680307200000000000, 1688169600000000000]) =
      .ok (some "QS-OCT") := by
  have h := C5_quarterly_alias
    [1672531200000000000, 1680307200000000000, 1688169600000000000]
    (by decide) (Or.inl (by decide)) (by decide) (by decide) (by decide)
    (by decide) 3 (by decide) (by decide) "cs" (by decide) (by decide)
    "QS" (by decide)
  rw [h]
  simp only [Except.ok.injEq, Option.some.injEq]
  decide

/-- C6: for a monotonic duplicate-free input that reaches the sub-daily
branch (the daily test fails, the business-hour heuristic fails, the raw
deltas are a single unique value), the unique nanosecond delta is tested
against periods per hour, minute, second, millisecond and microsecond in
that order; the first divisor determines the alias H, T, S, L, U, falling
through to N, with an integer count prefix exactly when the quotient is not
1. -/
theorem C6_subdaily_ladder :
    ∀ vals : List Int, 3 ≤ vals.length →
      (monoInc vals = true ∨ monoDec vals = true) → nodupB vals = true →
      ¬ ((deltas vals).headD 0 ≠ 0 ∧ (deltas vals).headD 0 % ppd = 0) →
      hour_deltas vals ∉
        [[(1 : ℚ), 17], [(1 : ℚ), 65], [(1 : ℚ), 17, 65]] →
      is_unique vals = true →
      ∀ d, d = (deltas vals).headD 0 →
      infer_freq (.datetimeIndex vals) = .ok (some (
        if d % 3600000000000 = 0 then
          (if Int.fdiv d 3600000000000 = 1 then "H"
           else intStr (Int.fdiv d 3600000000000) ++ "H")
        else if d % 60000000000 = 0 then
          (if Int.fdiv d 60000000000 = 1 then "T"
           else intStr (Int.fdiv d 60000000000) ++ "T")
        else if d % 1000000000 = 0 then
          (if Int.fdiv d 1000000000 = 1 then "S"
           else intStr (Int.fdiv d 1000000000) ++ "S")
        else if d % 1000000 = 0 then
          (if Int.fdiv d 1000000 = 1 then "L"
           else intStr (Int.fdiv d 1000000) ++ "L")
        else if d % 1000 = 0 then
          (if Int.fdiv d 1000 = 1 then "U"
           else intStr (Int.fdiv d 1000) ++ "U")
        else (if d = 1 then "N" else intStr d ++ "N"))) := by
  intro vals h3 hm hu hcond hns huniq d hd
  have hlt : ¬ vals.length < 3 := by omega
  have hm' : (monoInc vals || monoDec vals) = true := by
    rcases hm with h | h <;> simp [h]
  have hc1 : (((deltas vals).headD 0 != 0)
      && ((deltas vals).headD 0 % ppd == 0)) = false := by
    rw [Bool.eq_false_iff]
    intro hcc
    apply hcond
    simpa using hcc
  have h24 : Int.fdiv ppd 24 = 3600000000000 := by decide
  have h60 : Int.fdiv 3600000000000 60 = 60000000000 := by decide
  have h60b : Int.fdiv 60000000000 60 = 1000000000 := by decide
  have hms : Int.fdiv 1000000000 1000 = 1000000 := by decide
  have hus : Int.fdiv 1000000000 1000000 = 1000 := by decide
  simp only [infer_freq, if_neg hlt]
  unfold get_freq
  rw [hm', hu]
  simp only [Bool.not_true, Bool.or_self, Bool.or_false, Bool.false_or,
    if_false, hc1, if_neg hns, huniq]
  rw [← hd]
  simp only [h24, h60, h60b, hms, hus, maybe_add_count, bne_iff_ne, ne_eq,
    beq_iff_eq, ite_not]
  simp only [Bool.false_eq_true, if_false]
  split_ifs <;> simp_all

/-- C6 witness: 30-minute spacing is classified "30T". -/
theorem C6_witness :
    infer_freq (.datetimeIndex [0, 1800000000000, 3600000000000]) =
      .ok (some "30T") := by
  have hns : hour_deltas [0, 1800000000000, 3600000000000] ∉
      [[(1 : ℚ), 17], [(1 : ℚ), 65], [(1 : ℚ), 17, 65]] := by
    have h1 : hour_deltas [0, 1800000000000, 3600000000000]
        = [(1 : ℚ) / 2] := by
      have hc : deltas [0, 1800000000000, 3600000000000]
          = [1800000000000] := by decide
      have h24 : Int.fdiv ppd 24 = 3600000000000 := by decide
      unfold hour_deltas
      rw [hc, h24]
      norm_num
    rw [h1]
    norm_num
  have h := C6_subdaily_ladder [0, 1800000000000, 3600000000000]
    (by decide) (Or.inl (by decide)) (by decide) (by decide) hns
    (by decide) 1800000000000 (by decide)
  rw [h]
  simp only [Except.ok.injEq, Option.some.injEq]
  decide

/-- C7: the leap-year predicate of `pandas/tseries/util.py` returns true
exactly when the year is divisible by 4 and either not divisible by 100 or
divisible by 400; in particular it is true for 2000, 2004 and 2400 and false
for 1900, 2100 and 2001. -/
theorem C7_isleapyear :
    (∀ y : Int, isleapyear y =
      ((y % 4 == 0) && (!(y % 100 == 0) || (y % 400 == 0)))) ∧
    isleapyear 2000 = true ∧ isleapyear 2004 = true ∧ isleapyear 2400 = true ∧
    isleapyear 1900 = false ∧ isleapyear 2100 = false ∧
    isleapyear 2001 = false := by
  refine ⟨fun y => ?_, by decide, by decide, by decide, by decide, by decide,
    by decide⟩
  unfold isleapyear
  rw [Bool.eq_iff_iff]
  simp only [Bool.or_eq_true, Bool.and_eq_true, beq_iff_eq,
    Bool.not_eq_true', beq_eq_false_iff_ne, ne_eq, decide_eq_true_eq]
  omega

/-- C8: `infer_freq` raises `TypeError` on a `PeriodDtype` input and on a
numeric-dtype index, rather than returning the `None` used for
ambiguous-but-valid temporal input. -/
theorem C8_type_errors :
    ∀ vals : List Int,
      infer_freq (.periodIndex vals) = .error (.typeError
        "PeriodIndex given. Check the freq attribute instead of using infer_freq.") ∧
      infer_freq (.numericIndex vals) = .error (.typeError
        "cannot infer freq from a non-convertible index") :=
  fun _ => ⟨rfl, rfl⟩

/-- C9: on timedelta input, `infer_freq` never returns an annual, quarterly,
monthly, business-daily or week-of-month alias, in bare or count-prefixed
form: stripping any integer count prefix from the result never leaves a
string of those families. The timedelta daily branch only produces
daily/weekly aliases for evenly spaced input and `None` otherwise, skipping
all calendar-based sub-classification. -/
theorem C9_timedelta_no_calendar :
    ∀ (vals : List Int) (s : String),
      infer_freq (.timedeltaIndex vals) = .ok (some s) →
      inCalendarFamilies (stripCount s) = false := by
  intro vals s h
  simp only [infer_freq] at h
  split at h
  · cases h
  · injection h with h'
    rcases get_freq_td_shape vals _ h' with he | he | ⟨base, n, hb, he⟩
    · cases he
    · injection he with h''
      rw [h'']
      decide
    · injection he with h''
      rw [h'']
      exact mac_not_calendar base n hb

/-- C9 witness: a concrete evenly day-spaced timedelta input yields "D",
which (after count-prefix stripping) is in no calendar family. -/
theorem C9_witness :
    inCalendarFamilies (stripCount "D") = false :=
  C9_timedelta_no_calendar [0, 86400000000000, 172800000000000] "D" (by rfl)

/-- C10: `is_subperiod` is not reflexive on the coarse aliases "A", "Q", "M"
and their month-suffixed forms (it returns false there), while it is
reflexive on every weekly alias and on "B", "C", "D", "H", "T", "S", "L",
"U", "N". -/
theorem C10_reflexivity :
    (∀ x ∈ (["A", "Q", "M"] ++ MONTHS.map (fun m => "A-" ++ m)
        ++ MONTHS.map (fun m => "Q-" ++ m)
        ++ MONTHS.map (fun m => "M-" ++ m)),
      is_subperiod x x = false) ∧
    (∀ x ∈ (DAYS.map (fun d => "W-" ++ d)
        ++ ["B", "C", "D", "H", "T", "S", "L", "U", "N"]),
      is_subperiod x x = true) := by
  constructor <;> decide

/-- C10 witness: the reflexivity pattern at "A" and at "W-MON". -/
theorem C10_witness :
    is_subperiod "A" "A" = false ∧ is_subperiod "W-MON" "W-MON" = true :=
  ⟨C10_reflexivity.1 "A" (by decide), C10_reflexivity.2 "W-MON" (by decide)⟩

end Pandas
